import Mathlib

/-!
Verification development for the CreateDesktopFile repository.

The repository generates Freedesktop `.desktop` launcher files.  The core
logic embedded here is:

* the entry model and its renderer (src/desktop_entry.rs),
* the input resolver and its two modes (src/modes.rs run_cli, duplicated
  in src/main.rs run_cli_mode),
* the target-path resolution policy with its privilege precondition
  (src/main.rs, src/modes.rs),
* the top-level dispatcher (src/main.rs main).

External collaborators (home-directory lookup, the root-privilege query,
the interactive line reader, the file system) are passed in as explicit
parameters; fatal panics and process exits are represented as outcome
constructors.
-/

namespace CreateDesktopFile

/-! ### Flag tokens

The crate declares a module named flags (main.rs: mod flags) whose source
file is not part of the sources available here; only its uses are. -/

/-- Modelled from the spec: token of the local-install flag, from the CLI
surface table (the flags module source is missing); it matches the literal
used in the repository tests. -/
def flags.LOCAL : String := "--local"

/-- Modelled from the spec: token of the global-install flag (the flags
module source is missing). -/
def flags.GLOBAL : String := "--global"

/-- Modelled from the spec: token of the name flag (the flags module source
is missing); main.rs line 94 also spells this token out literally. -/
def flags.NAME : String := "--name"

/-- Modelled from the spec: token of the comment flag (the flags module
source is missing). -/
def flags.COMMENT : String := "--comment"

/-- Modelled from the spec: token of the executable-path flag (the flags
module source is missing). -/
def flags.EXEC_PATH : String := "--exec-path"

/-- Modelled from the spec: token of the icon-path flag (the flags module
source is missing). -/
def flags.ICON_PATH : String := "--icon-path"

/-- Modelled from the spec: token of the terminal-app flag (the flags
module source is missing). -/
def flags.TERMINAL_APP : String := "--terminal-app"

/-- Modelled from the spec: token of the app-type flag (the flags module
source is missing). -/
def flags.APP_TYPE : String := "--app-type"

/-- Modelled from the spec: token of the categories flag (the flags module
source is missing). -/
def flags.CATEGORIES : String := "--categories"

/-- Modelled from the spec: token of the help flag (the flags module source
is missing). -/
def flags.HELP : String := "--help"

/-- Modelled from the spec: token of the version flag (the flags module
source is missing). -/
def flags.VERSION : String := "--version"

/-- The six detail flags, that is every recognized value-carrying flag
other than the name flag (main.rs lines 95-102, modes.rs lines 11-18). -/
def detailFlags : List String :=
  [flags.COMMENT, flags.EXEC_PATH, flags.ICON_PATH,
   flags.TERMINAL_APP, flags.APP_TYPE, flags.CATEGORIES]

/-! ### String primitives

Rust primitives used by the sources, modelled on the character list of a
Lean string: str::starts_with, str::ends_with, str::trim. -/

/-- Model of Rust str::starts_with on character lists. -/
def listStartsWith : List Char → List Char → Bool
  | _, [] => true
  | [], _ :: _ => false
  | a :: as, b :: bs => a = b && listStartsWith as bs

/-- Model of Rust str::starts_with. -/
def strStartsWith (s pat : String) : Bool :=
  listStartsWith s.data pat.data

/-- Model of Rust str::ends_with. -/
def strEndsWith (s pat : String) : Bool :=
  listStartsWith s.data.reverse pat.data.reverse

/-- Removal of leading whitespace characters, the first half of Rust
str::trim. -/
def ltrim (cs : List Char) : List Char :=
  cs.dropWhile Char.isWhitespace

/-- Removal of leading and trailing whitespace characters, Rust str::trim
on character lists. -/
def trimChars (cs : List Char) : List Char :=
  (ltrim ((ltrim cs).reverse)).reverse

/-- Model of Rust str::trim. -/
def rustTrim (s : String) : String :=
  String.mk (trimChars s.data)

/-! ### Entry Model (src/desktop_entry.rs) -/

/-- The DesktopEntry value object of src/desktop_entry.rs: seven string
fields, stored untrimmed exactly as supplied to DesktopEntry::new. -/
structure DesktopEntry where
  name : String
  comment : String
  exec_path : String
  icon_path : String
  terminal_app : String
  app_type : String
  categories : String
deriving DecidableEq, Repr

/-- Renderer DesktopEntry::to_string (src/desktop_entry.rs lines 33-52):
a fixed text block, header line first, each field trimmed and substituted
into its own line, with no text after the final field. -/
def DesktopEntry.to_string (e : DesktopEntry) : String :=
  "[Desktop Entry]\nName=" ++ rustTrim e.name ++
  "\nComment=" ++ rustTrim e.comment ++
  "\nExec=" ++ rustTrim e.exec_path ++
  "\nIcon=" ++ rustTrim e.icon_path ++
  "\nTerminal=" ++ rustTrim e.terminal_app ++
  "\nType=" ++ rustTrim e.app_type ++
  "\nCategories=" ++ rustTrim e.categories

/-! ### Flag value extraction (modes.rs lines 51-138, main.rs 216-303) -/

/-- Value extraction for a single-token flag: position of the first token
equal to the flag, then the token right after it, if any (the Rust chain
args.iter().position(..) .and_then(args.get (index+1))). -/
def getFlagValue (flag : String) : List String → Option String
  | [] => none
  | a :: rest => if a = flag then rest.head? else getFlagValue flag rest

/-- Tokens collected after the comment flag: consecutive tokens up to the
first one that begins with the marker of a flag (the while loop of
modes.rs lines 70-76). -/
def takeCommentParts : List String → List String
  | [] => []
  | a :: rest =>
    if strStartsWith a "--" then [] else a :: takeCommentParts rest

/-- Value extraction for the comment flag: all consecutive non-flag tokens
after the first occurrence of the comment flag, joined with single spaces;
absent when that collection is empty (modes.rs lines 63-83). -/
def getCommentValue : List String → Option String
  | [] => none
  | a :: rest =>
    if a = flags.COMMENT then
      let parts := takeCommentParts rest
      if parts.isEmpty then none else some (String.intercalate " " parts)
    else getCommentValue rest

/-- Which branch of the resolver produced the entry: the flag-driven
branch or the interactive prompting branch. -/
inductive Mode where
  | flagDriven
  | interactive
deriving DecidableEq, Repr

/-- Field population of run_cli (modes.rs lines 51-158): when the name
flag yields a value, every field is taken from the flags (absent values
leave the empty initial string); otherwise every field is read from the
line-oriented input channel in the fixed order, one line per field.  The
stdin parameter lists the successive results of the read_line calls; a
read at end of input leaves the field empty. -/
def extractEntry (args : List String) (stdin : List String) :
    DesktopEntry × Mode :=
  match getFlagValue flags.NAME args with
  | some n =>
    ({ name := n,
       comment := (getCommentValue args).getD "",
       exec_path := (getFlagValue flags.EXEC_PATH args).getD "",
       icon_path := (getFlagValue flags.ICON_PATH args).getD "",
       terminal_app := (getFlagValue flags.TERMINAL_APP args).getD "",
       app_type := (getFlagValue flags.APP_TYPE args).getD "",
       categories := (getFlagValue flags.CATEGORIES args).getD "" },
     Mode.flagDriven)
  | none =>
    ({ name := stdin.getD 0 "",
       comment := stdin.getD 1 "",
       exec_path := stdin.getD 2 "",
       icon_path := stdin.getD 3 "",
       terminal_app := stdin.getD 4 "",
       app_type := stdin.getD 5 "",
       categories := stdin.getD 6 "" },
     Mode.interactive)

/-! ### Path joining (Rust PathBuf::push) -/

/-- Model of PathBuf::push: an absolute child replaces the whole path, a
relative child is appended behind a separator. -/
def pushPath (base child : String) : String :=
  if strStartsWith child "/" then child
  else if strEndsWith base "/" then base ++ child
  else base ++ "/" ++ child

/-- Presence of the name flag among the tokens (modes.rs line 10,
main.rs line 94). -/
def hasName (args : List String) : Bool :=
  args.any (fun a => a = flags.NAME)

/-- Presence of any of the six detail flags among the tokens (modes.rs
lines 11-18, main.rs lines 95-102). -/
def hasDesktopFlags (args : List String) : Bool :=
  args.any (fun a =>
    a = flags.COMMENT || a = flags.EXEC_PATH || a = flags.ICON_PATH ||
    a = flags.TERMINAL_APP || a = flags.APP_TYPE || a = flags.CATEGORIES)

/-- Outcome of one CLI-mode run: the fatal panics of the source, or a
successful run recording the resolved directory, the final file path, the
entry written, and which resolver branch produced it. -/
inductive CliResult where
  | panicUsage
  | panicHome
  | panicPermission
  | ok (dir : String) (file : String) (entry : DesktopEntry) (mode : Mode)
deriving DecidableEq, Repr

/-- Resolved target directory of a successful run, if any. -/
def CliResult.dir? : CliResult → Option String
  | .ok dir _ _ _ => some dir
  | _ => none

/-- Entry written by a successful run, if any. -/
def CliResult.entry? : CliResult → Option DesktopEntry
  | .ok _ _ e _ => some e
  | _ => none

/-- The paths main.rs lines 191-192 hardcodes for the two install
targets. -/
def local_share_applications_path : String := ".local/share/applications/"

/-- The fixed global applications directory (main.rs line 192). -/
def global_share_applications_path : String := "/usr/share/applications/"

/-- Embedding of run_cli (src/modes.rs lines 8-179): usage precondition,
home-directory lookup, privilege check for the global target, path
resolution, field extraction, and the file write, in the source order.
The homeDir, isRoot and stdin parameters stand for the external
collaborators dirs::home_dir, nix getuid().is_root() and the line
reader. -/
def run_cli (is_global : Bool) (args : List String)
    (local_share_applications global_share_applications : String)
    (homeDir : Option String) (isRoot : Bool) (stdin : List String) :
    CliResult :=
  if hasDesktopFlags args && !hasName args then .panicUsage
  else
    match homeDir with
    | none => .panicHome
    | some home =>
      if is_global && !isRoot then .panicPermission
      else
        let dir := pushPath home
          (if is_global then global_share_applications
           else local_share_applications)
        let em := extractEntry args stdin
        let filename := rustTrim em.1.name ++ ".desktop"
        .ok dir (pushPath dir filename) em.1 em.2

/-- Embedding of run_cli_mode (src/main.rs lines 183-347): identical to
run_cli except that the install directories are the hardcoded constants
and the usage precondition is checked by its caller main, not here. -/
def run_cli_mode (is_global : Bool) (args : List String)
    (homeDir : Option String) (isRoot : Bool) (stdin : List String) :
    CliResult :=
  match homeDir with
  | none => .panicHome
  | some home =>
    if is_global && !isRoot then .panicPermission
    else
      let dir := pushPath home
        (if is_global then global_share_applications_path
         else local_share_applications_path)
      let em := extractEntry args stdin
      let filename := rustTrim em.1.name ++ ".desktop"
      .ok dir (pushPath dir filename) em.1 em.2

/-- Outcome of one whole process invocation (src/main.rs main). -/
inductive MainResult where
  | panicOS
  | panicUsage
  | exitHelp
  | exitVersion
  | cli (r : CliResult)
  | gui
deriving DecidableEq, Repr

/-- Operating systems accepted by the dispatcher (main.rs line 82). -/
def supported_oses : List String := ["linux"]

/-- Embedding of main (src/main.rs lines 77-131): operating-system gate,
usage precondition, help and version short-circuits, then dispatch to the
CLI mode or the graphical mode.  The args list is the full argument
vector of the process. -/
def main (os : String) (args : List String) (homeDir : Option String)
    (isRoot : Bool) (stdin : List String) : MainResult :=
  if !(supported_oses.contains os) then .panicOS
  else
    let is_cli := args.any (fun a =>
      a = flags.LOCAL || a = flags.GLOBAL || a = flags.NAME)
    let is_global := args.any (fun a => a = flags.GLOBAL)
    if hasDesktopFlags args && !hasName args then .panicUsage
    else if args.any (fun a => a = flags.HELP) then .exitHelp
    else if args.any (fun a => a = flags.VERSION) then .exitVersion
    else if is_cli then
      .cli (run_cli_mode is_global args homeDir isRoot stdin)
    else .gui

/-! ### Line decomposition of rendered output -/

/-- Decomposition of a character list into its newline-separated lines;
a trailing newline yields a final empty line. -/
def splitLines : List Char → List (List Char)
  | [] => [[]]
  | c :: cs =>
    if c = '\n' then [] :: splitLines cs
    else (c :: (splitLines cs).headD []) :: (splitLines cs).tail

/-- The eight lines the renderer is expected to produce for an entry. -/
def renderLines (e : DesktopEntry) : List (List Char) :=
  ["[Desktop Entry]".data,
   "Name=".data ++ (rustTrim e.name).data,
   "Comment=".data ++ (rustTrim e.comment).data,
   "Exec=".data ++ (rustTrim e.exec_path).data,
   "Icon=".data ++ (rustTrim e.icon_path).data,
   "Terminal=".data ++ (rustTrim e.terminal_app).data,
   "Type=".data ++ (rustTrim e.app_type).data,
   "Categories=".data ++ (rustTrim e.categories).data]

/-- Field of the entry associated with a detail flag token, for stating
per-flag resolution properties. -/
def flagField (f : String) (e : DesktopEntry) : String :=
  if f = flags.COMMENT then e.comment
  else if f = flags.EXEC_PATH then e.exec_path
  else if f = flags.ICON_PATH then e.icon_path
  else if f = flags.TERMINAL_APP then e.terminal_app
  else if f = flags.APP_TYPE then e.app_type
  else if f = flags.CATEGORIES then e.categories
  else ""

/-! ### Helper lemmas on extraction -/

theorem getFlagValue_append_first (f : String) (pre rest : List String)
    (h : f ∉ pre) : getFlagValue f (pre ++ f :: rest) = rest.head? := by
  induction pre with
  | nil => simp [getFlagValue]
  | cons a pre ih =>
    have ha : a ≠ f := fun e => h (e ▸ List.mem_cons_self a pre)
    simp only [List.cons_append, getFlagValue, if_neg ha]
    exact ih (fun hm => h (List.mem_cons_of_mem a hm))

theorem getCommentValue_append_first (pre rest : List String)
    (h : flags.COMMENT ∉ pre) :
    getCommentValue (pre ++ flags.COMMENT :: rest) =
      (if (takeCommentParts rest).isEmpty then none
       else some (String.intercalate " " (takeCommentParts rest))) := by
  induction pre with
  | nil => simp [getCommentValue]
  | cons a pre ih =>
    have ha : a ≠ flags.COMMENT := fun e => h (e ▸ List.mem_cons_self a pre)
    simp only [List.cons_append, getCommentValue, if_neg ha]
    exact ih (fun hm => h (List.mem_cons_of_mem a hm))

theorem takeCommentParts_spec (parts post : List String)
    (hp : ∀ p ∈ parts, strStartsWith p "--" = false)
    (hpost : ∀ a, post.head? = some a → strStartsWith a "--" = true) :
    takeCommentParts (parts ++ post) = parts := by
  induction parts with
  | nil =>
    cases post with
    | nil => rfl
    | cons a rest => simp [takeCommentParts, hpost a rfl]
  | cons p ps ih =>
    have hp0 : strStartsWith p "--" = false := hp p (List.mem_cons_self p ps)
    simp only [List.cons_append, takeCommentParts, hp0]
    simp only [Bool.false_eq_true, if_false, List.cons.injEq, true_and]
    exact ih (fun q hq => hp q (List.mem_cons_of_mem p hq))

theorem extractEntry_flagDriven (args stdin : List String) (v : String)
    (h : getFlagValue flags.NAME args = some v) :
    extractEntry args stdin =
      ({ name := v,
         comment := (getCommentValue args).getD "",
         exec_path := (getFlagValue flags.EXEC_PATH args).getD "",
         icon_path := (getFlagValue flags.ICON_PATH args).getD "",
         terminal_app := (getFlagValue flags.TERMINAL_APP args).getD "",
         app_type := (getFlagValue flags.APP_TYPE args).getD "",
         categories := (getFlagValue flags.CATEGORIES args).getD "" },
       Mode.flagDriven) := by
  simp [extractEntry, h]

theorem hasDesktopFlags_of_mem (args : List String) (a : String)
    (ha : a ∈ args) (hm : a ∈ detailFlags) : hasDesktopFlags args = true := by
  unfold hasDesktopFlags
  rw [List.any_eq_true]
  refine ⟨a, ha, ?_⟩
  simp only [detailFlags, List.mem_cons, List.mem_singleton,
    List.not_mem_nil, or_false] at hm
  rcases hm with rfl | rfl | rfl | rfl | rfl | rfl <;> simp

theorem hasName_eq_false (args : List String) (h : flags.NAME ∉ args) :
    hasName args = false := by
  unfold hasName
  rw [List.any_eq_false]
  intro x hx
  simp only [decide_eq_true_eq]
  exact fun e => h (e ▸ hx)

/-! ### Helper lemmas on trimming -/

theorem ltrim_ltrim (l : List Char) : ltrim (ltrim l) = ltrim l := by
  unfold ltrim
  induction l with
  | nil => rfl
  | cons c cs ih =>
    by_cases h : Char.isWhitespace c
    · rw [List.dropWhile_cons_of_pos h]
      exact ih
    · rw [List.dropWhile_cons_of_neg h, List.dropWhile_cons_of_neg h]

theorem ltrim_head_not_ws (l : List Char) :
    ltrim l = [] ∨
    ∃ c cs, ltrim l = c :: cs ∧ Char.isWhitespace c = false := by
  unfold ltrim
  induction l with
  | nil => exact Or.inl rfl
  | cons c cs ih =>
    by_cases h : Char.isWhitespace c
    · rw [List.dropWhile_cons_of_pos h]
      exact ih
    · exact Or.inr ⟨c, cs, by rw [List.dropWhile_cons_of_neg h],
        by simpa using h⟩

theorem ltrim_decomp (l : List Char) : ∃ t, l = t ++ ltrim l :=
  ⟨l.takeWhile Char.isWhitespace,
   (List.takeWhile_append_dropWhile (p := Char.isWhitespace) (l := l)).symm⟩

theorem ltrim_trimChars (l : List Char) :
    ltrim (trimChars l) = trimChars l := by
  have key : ∀ a : List Char,
      (a = [] ∨ ∃ c cs, a = c :: cs ∧ Char.isWhitespace c = false) →
      ltrim ((ltrim a.reverse).reverse) = (ltrim a.reverse).reverse := by
    intro a ha
    obtain ⟨t, ht⟩ := ltrim_decomp a.reverse
    have ha2 : a = (ltrim a.reverse).reverse ++ t.reverse := by
      have h := congrArg List.reverse ht
      simpa [List.reverse_append] using h
    cases hbr : (ltrim a.reverse).reverse with
    | nil => rfl
    | cons x xs =>
      rw [hbr] at ha2
      rcases ha with rfl | ⟨c, cs, rfl, hw⟩
      · exact absurd ha2.symm (by simp)
      · have hxc : c = x := by
          rw [List.cons_append] at ha2
          injection ha2 with h1 _
        have hx : Char.isWhitespace x = false := hxc ▸ hw
        show List.dropWhile Char.isWhitespace (x :: xs) = x :: xs
        rw [List.dropWhile_cons_of_neg (by simp [hx])]
  have happ := key (ltrim l) (ltrim_head_not_ws l)
  exact happ

theorem trimChars_idem (l : List Char) :
    trimChars (trimChars l) = trimChars l := by
  have h1 : ltrim (trimChars l) = trimChars l := ltrim_trimChars l
  calc trimChars (trimChars l)
      = (ltrim ((ltrim (trimChars l)).reverse)).reverse := rfl
    _ = (ltrim ((trimChars l).reverse)).reverse := by rw [h1]
    _ = (ltrim (((ltrim ((ltrim l).reverse)).reverse).reverse)).reverse := rfl
    _ = (ltrim (ltrim ((ltrim l).reverse))).reverse := by
          rw [List.reverse_reverse]
    _ = (ltrim ((ltrim l).reverse)).reverse := by rw [ltrim_ltrim]
    _ = trimChars l := rfl

theorem rustTrim_idem (s : String) : rustTrim (rustTrim s) = rustTrim s := by
  unfold rustTrim
  rw [show (String.mk (trimChars s.data)).data = trimChars s.data from rfl,
    trimChars_idem]

/-! ### Helper lemmas on line decomposition -/

theorem splitLines_of_not_mem (xs : List Char) (h : '\n' ∉ xs) :
    splitLines xs = [xs] := by
  induction xs with
  | nil => rfl
  | cons c cs ih =>
    have hc : c ≠ '\n' := fun e => h (e ▸ List.mem_cons_self c cs)
    have ih2 := ih (fun hm => h (List.mem_cons_of_mem c hm))
    simp [splitLines, if_neg hc, ih2]

theorem splitLines_append_newline (xs ys : List Char) (h : '\n' ∉ xs) :
    splitLines (xs ++ '\n' :: ys) = xs :: splitLines ys := by
  induction xs with
  | nil => simp [splitLines]
  | cons c cs ih =>
    have hc : c ≠ '\n' := fun e => h (e ▸ List.mem_cons_self c cs)
    have ih2 := ih (fun hm => h (List.mem_cons_of_mem c hm))
    simp [splitLines, if_neg hc, ih2]

theorem splitLines_seg (xs ys zs : List Char)
    (hx : '\n' ∉ xs) (hy : '\n' ∉ ys) :
    splitLines (xs ++ (ys ++ '\n' :: zs)) = (xs ++ ys) :: splitLines zs := by
  rw [← List.append_assoc]
  exact splitLines_append_newline _ _ (by simp [hx, hy])

theorem splitLines_last (xs ys : List Char)
    (hx : '\n' ∉ xs) (hy : '\n' ∉ ys) :
    splitLines (xs ++ ys) = [xs ++ ys] :=
  splitLines_of_not_mem _ (by simp [hx, hy])

/-! ### Claim theorems -/

/-- Claim C1: every argument sequence that contains at least one of the six
detail flags but not the name flag makes resolution fail fatally with a
usage error, both in run_cli and in the main dispatcher, before any file is
written; it never proceeds silently and never falls back to interactive
mode. -/
theorem c1_details_require_name (ig : Bool) (args : List String)
    (lsp gsp : String) (home : Option String) (root : Bool)
    (stdin : List String)
    (hd : ∃ a ∈ args, a ∈ detailFlags)
    (hn : flags.NAME ∉ args) :
    run_cli ig args lsp gsp home root stdin = CliResult.panicUsage ∧
    main "linux" args home root stdin = MainResult.panicUsage := by
  obtain ⟨a, ha, hm⟩ := hd
  have h1 : hasDesktopFlags args = true := hasDesktopFlags_of_mem args a ha hm
  have h2 : hasName args = false := hasName_eq_false args hn
  have hos : "linux" ∈ supported_oses := by decide
  constructor
  · simp [run_cli, h1, h2]
  · simp [main, hos, h1, h2]

theorem c1_details_require_name_witness :
    run_cli false ["--comment", "Test Application"]
      local_share_applications_path global_share_applications_path
      (some "/home/user") false [] = CliResult.panicUsage ∧
    main "linux" ["--comment", "Test Application"]
      (some "/home/user") false [] = MainResult.panicUsage :=
  c1_details_require_name false ["--comment", "Test Application"]
    local_share_applications_path global_share_applications_path
    (some "/home/user") false []
    ⟨"--comment", by decide, by decide⟩ (by decide)

/-- Claim C2 counterexample: with the global flag, the comment flag and no
name flag, the unprivileged run fails with the usage error, not with the
permission error the claim promises regardless of the other flags. -/
theorem c2_counterexample :
    run_cli true ["--global", "--comment", "Test"]
      local_share_applications_path global_share_applications_path
      (some "/home/user") false [] = CliResult.panicUsage ∧
    CliResult.panicUsage ≠ CliResult.panicPermission := by
  constructor
  · decide
  · decide

/-- Claim C2 as amended: provided the usage precondition holds (no detail
flag without the name flag) and the home directory resolves, a Global
invocation without privilege fails fatally with the permission error and
writes nothing, and a privileged Global invocation resolves successfully
to the fixed global applications directory. -/
theorem c2_global_privilege (args stdin : List String) (home : String)
    (h : (hasDesktopFlags args && !hasName args) = false) :
    run_cli true args local_share_applications_path
      global_share_applications_path (some home) false stdin =
      CliResult.panicPermission ∧
    (run_cli true args local_share_applications_path
      global_share_applications_path (some home) true stdin).dir? =
      some global_share_applications_path := by
  have hg : strStartsWith global_share_applications_path "/" = true := by
    decide
  constructor
  · simp [run_cli, h]
  · simp [run_cli, h, pushPath, hg, CliResult.dir?]

theorem c2_global_privilege_witness :
    run_cli true ["--global"] local_share_applications_path
      global_share_applications_path (some "/home/user") false [] =
      CliResult.panicPermission ∧
    (run_cli true ["--global"] local_share_applications_path
      global_share_applications_path (some "/home/user") true []).dir? =
      some global_share_applications_path :=
  c2_global_privilege ["--global"] [] "/home/user" (by decide)

/-- Claim C3 counterexample: the sequence contains the name flag and the
comment flag followed by two non-flag tokens, yet the resolved comment is
not those tokens joined, because the name flag carries no following value
and the resolver prompts interactively instead. -/
theorem c3_counterexample :
    (extractEntry ["--comment", "This", "is", "--name"] []).1.comment = ""
    ∧ ("" : String) ≠ "This is" := by
  constructor
  · decide
  · decide

/-- Claim C3 as amended: for every argument sequence in which the name
flag is followed by a value token and the first occurrence of the comment
flag is followed by consecutive non-flag tokens up to the next flag-like
token, the resolved comment equals those tokens joined by single
spaces. -/
theorem c3_comment_join (pre parts post stdin : List String) (v : String)
    (hpre : flags.COMMENT ∉ pre)
    (hparts : ∀ p ∈ parts, strStartsWith p "--" = false)
    (hpost : ∀ a, post.head? = some a → strStartsWith a "--" = true)
    (hname : getFlagValue flags.NAME
      (pre ++ flags.COMMENT :: (parts ++ post)) = some v) :
    (extractEntry (pre ++ flags.COMMENT :: (parts ++ post)) stdin).1.comment
      = String.intercalate " " parts := by
  have hc := getCommentValue_append_first pre (parts ++ post) hpre
  rw [takeCommentParts_spec parts post hparts hpost] at hc
  rw [extractEntry_flagDriven _ stdin v hname]
  rw [hc]
  by_cases hp : parts.isEmpty
  · have : parts = [] := by simpa using hp
    subst this
    rfl
  · simp [hp]

theorem c3_comment_join_witness :
    (extractEntry
      ["--local", "--name", "TestApp", "--comment", "This", "is", "a", "test"]
      []).1.comment = String.intercalate " " ["This", "is", "a", "test"] :=
  c3_comment_join ["--local", "--name", "TestApp"]
    ["This", "is", "a", "test"] [] [] "TestApp"
    (by decide) (by decide) (by decide) (by decide)

/-- Claim C4 counterexample: a non-comment field flag whose immediately
following token is itself a flag does not resolve to the empty string; the
flag-like token is taken as the value. -/
theorem c4_counterexample :
    (extractEntry ["--name", "App", "--exec-path", "--icon-path"]
      []).1.exec_path = "--icon-path" ∧
    ("--icon-path" : String) ≠ "" := by
  constructor
  · decide
  · decide

/-- Claim C4 as amended: in flag-driven mode, a detail flag with no
following token at all resolves its field to the empty string, and the
comment flag additionally resolves to the empty string when its
immediately following token begins with the flag-prefix marker; for the
other five detail flags a following flag-like token is consumed as the
value instead. -/
theorem c4_absent_value_empty (args stdin : List String) (v f : String)
    (pre : List String)
    (hname : getFlagValue flags.NAME args = some v)
    (hf : f ∈ detailFlags) (hfst : f ∉ pre) :
    (args = pre ++ [f] → flagField f (extractEntry args stdin).1 = "") ∧
    (∀ a post, f = flags.COMMENT → args = pre ++ f :: a :: post →
      strStartsWith a "--" = true →
      (extractEntry args stdin).1.comment = "") := by
  constructor
  · intro heq
    subst heq
    rw [extractEntry_flagDriven _ stdin v hname]
    simp only [detailFlags, List.mem_cons, List.not_mem_nil, or_false] at hf
    rcases hf with rfl | rfl | rfl | rfl | rfl | rfl
    · have hc := getCommentValue_append_first pre [] hfst
      simp only [takeCommentParts] at hc
      simp at hc
      rw [show ∀ e, flagField flags.COMMENT e = e.comment from fun _ => rfl]
      simp [hc]
    · have hc := getFlagValue_append_first flags.EXEC_PATH pre [] hfst
      rw [show ∀ e, flagField flags.EXEC_PATH e = e.exec_path from
        fun _ => rfl]
      simp [hc]
    · have hc := getFlagValue_append_first flags.ICON_PATH pre [] hfst
      rw [show ∀ e, flagField flags.ICON_PATH e = e.icon_path from
        fun _ => rfl]
      simp [hc]
    · have hc := getFlagValue_append_first flags.TERMINAL_APP pre [] hfst
      rw [show ∀ e, flagField flags.TERMINAL_APP e = e.terminal_app from
        fun _ => rfl]
      simp [hc]
    · have hc := getFlagValue_append_first flags.APP_TYPE pre [] hfst
      rw [show ∀ e, flagField flags.APP_TYPE e = e.app_type from
        fun _ => rfl]
      simp [hc]
    · have hc := getFlagValue_append_first flags.CATEGORIES pre [] hfst
      rw [show ∀ e, flagField flags.CATEGORIES e = e.categories from
        fun _ => rfl]
      simp [hc]
  · rintro a post rfl heq hstart
    subst heq
    rw [extractEntry_flagDriven _ stdin v hname]
    have hc := getCommentValue_append_first pre (a :: post) hfst
    rw [show takeCommentParts (a :: post) = [] from by
      simp [takeCommentParts, hstart]] at hc
    simp at hc
    simp [hc]

theorem c4_absent_value_empty_witness :
    flagField flags.EXEC_PATH
      (extractEntry ["--name", "App", "--exec-path"] []).1 = "" :=
  (c4_absent_value_empty ["--name", "App", "--exec-path"] [] "App"
    flags.EXEC_PATH ["--name", "App"] (by decide) (by decide)
    (by decide)).1 rfl

/-- Claim C5 counterexample: a sequence in which the name flag token is
present but is the final token is resolved by interactive prompting, not by
flag-driven extraction. -/
theorem c5_counterexample :
    (extractEntry ["--local", "--name"] []).2 = Mode.interactive ∧
    Mode.interactive ≠ Mode.flagDriven := by
  constructor
  · decide
  · decide

/-- Claim C5 as amended: the resolver runs in exactly one of two modes
selected by the presence of a name value, that is the name flag token
followed by at least one token: flag-driven extraction is used exactly
when such a value exists, and interactive prompting exactly when it does
not. -/
theorem c5_mode_selection (args stdin : List String) :
    ((extractEntry args stdin).2 = Mode.flagDriven ↔
      (getFlagValue flags.NAME args).isSome = true) ∧
    ((extractEntry args stdin).2 = Mode.interactive ↔
      getFlagValue flags.NAME args = none) := by
  cases h : getFlagValue flags.NAME args <;> simp [extractEntry, h]

/-- Claim C6 counterexample: an argument sequence containing the help token
together with a detail flag and no name flag does not exit with status 0;
the usage-error precondition check runs first and the process fails
fatally. -/
theorem c6_counterexample :
    main "linux" ["--comment", "x", "--help"] none false [] =
      MainResult.panicUsage ∧
    MainResult.panicUsage ≠ MainResult.exitHelp := by
  constructor
  · decide
  · decide

/-- Claim C6 as amended: for every argument sequence that passes the
usage precondition, the help token short-circuits before any resolution
with exit status 0, and so does the version token when the help token is
absent; the usage-error precondition check runs before both
short-circuits. -/
theorem c6_help_version_shortcircuit (args : List String)
    (home : Option String) (root : Bool) (stdin : List String)
    (h : (hasDesktopFlags args && !hasName args) = false) :
    (flags.HELP ∈ args →
      main "linux" args home root stdin = MainResult.exitHelp) ∧
    (flags.HELP ∉ args → flags.VERSION ∈ args →
      main "linux" args home root stdin = MainResult.exitVersion) := by
  have hos : "linux" ∈ supported_oses := by decide
  constructor
  · intro hh
    have h2 : args.any (fun a => a = flags.HELP) = true :=
      List.any_eq_true.mpr ⟨flags.HELP, hh, by simp⟩
    simp [main, hos, h, h2]
  · intro hh hv
    have h2 : args.any (fun a => a = flags.HELP) = false := by
      rw [List.any_eq_false]
      intro x hx
      simp only [decide_eq_true_eq]
      exact fun e => hh (e ▸ hx)
    have h3 : args.any (fun a => a = flags.VERSION) = true :=
      List.any_eq_true.mpr ⟨flags.VERSION, hv, by simp⟩
    simp [main, hos, h, h2, h3]

theorem c6_help_version_witness :
    main "linux" ["--help"] none false [] = MainResult.exitHelp ∧
    main "linux" ["--version"] none false [] = MainResult.exitVersion :=
  ⟨(c6_help_version_shortcircuit ["--help"] none false [] (by decide)).1
      (by decide),
   (c6_help_version_shortcircuit ["--version"] none false [] (by decide)).2
      (by decide) (by decide)⟩

/-- Claim C7 counterexample: the rendered output consists of eight
newline-separated lines, not seven, since the header line precedes the
seven field lines. -/
theorem c7_counterexample :
    (splitLines (DesktopEntry.to_string
      ⟨"a", "b", "c", "d", "e", "f", "g"⟩).data).length = 8 ∧
    (8 : Nat) ≠ 7 := by
  constructor
  · decide
  · decide

/-- Claim C7 as amended: for every entry whose trimmed field values
contain no newline, the rendered output decomposes into exactly eight
lines, the header line first, followed by the seven field lines in fixed
order with each field substituted after its key, and with no trailing
newline after the final field line. -/
theorem c7_render_lines (e : DesktopEntry)
    (h1 : '\n' ∉ (rustTrim e.name).data)
    (h2 : '\n' ∉ (rustTrim e.comment).data)
    (h3 : '\n' ∉ (rustTrim e.exec_path).data)
    (h4 : '\n' ∉ (rustTrim e.icon_path).data)
    (h5 : '\n' ∉ (rustTrim e.terminal_app).data)
    (h6 : '\n' ∉ (rustTrim e.app_type).data)
    (h7 : '\n' ∉ (rustTrim e.categories).data) :
    splitLines e.to_string.data = renderLines e ∧
    (renderLines e).length = 8 ∧
    (renderLines e).head? = some "[Desktop Entry]".data := by
  refine ⟨?_, rfl, rfl⟩
  have hd : e.to_string.data =
      "[Desktop Entry]".data ++ '\n' ::
      ("Name=".data ++ ((rustTrim e.name).data ++ '\n' ::
      ("Comment=".data ++ ((rustTrim e.comment).data ++ '\n' ::
      ("Exec=".data ++ ((rustTrim e.exec_path).data ++ '\n' ::
      ("Icon=".data ++ ((rustTrim e.icon_path).data ++ '\n' ::
      ("Terminal=".data ++ ((rustTrim e.terminal_app).data ++ '\n' ::
      ("Type=".data ++ ((rustTrim e.app_type).data ++ '\n' ::
      ("Categories=".data ++
        (rustTrim e.categories).data))))))))))))) := by
    simp [DesktopEntry.to_string]
  rw [hd]
  rw [splitLines_append_newline _ _ (by decide)]
  rw [splitLines_seg _ _ _ (by decide) h1]
  rw [splitLines_seg _ _ _ (by decide) h2]
  rw [splitLines_seg _ _ _ (by decide) h3]
  rw [splitLines_seg _ _ _ (by decide) h4]
  rw [splitLines_seg _ _ _ (by decide) h5]
  rw [splitLines_seg _ _ _ (by decide) h6]
  rw [splitLines_last _ _ (by decide) h7]
  simp [renderLines]

theorem c7_render_lines_witness :
    splitLines (DesktopEntry.to_string
      ⟨"TestApp", "Test Application", "/usr/bin/test",
       "/usr/share/icons/test.png", "false", "Application",
       "Development;"⟩).data =
      renderLines
        ⟨"TestApp", "Test Application", "/usr/bin/test",
         "/usr/share/icons/test.png", "false", "Application",
         "Development;"⟩ ∧
    (renderLines
      ⟨"TestApp", "Test Application", "/usr/bin/test",
       "/usr/share/icons/test.png", "false", "Application",
       "Development;"⟩).length = 8 ∧
    (renderLines
      ⟨"TestApp", "Test Application", "/usr/bin/test",
       "/usr/share/icons/test.png", "false", "Application",
       "Development;"⟩).head? = some "[Desktop Entry]".data :=
  c7_render_lines
    ⟨"TestApp", "Test Application", "/usr/bin/test",
     "/usr/share/icons/test.png", "false", "Application", "Development;"⟩
    (by decide) (by decide) (by decide) (by decide) (by decide)
    (by decide) (by decide)

/-- Claim C8: render-time trimming is idempotent: pre-trimming any single
field of an entry leaves the rendered output unchanged. -/
theorem c8_trim_idempotent (e : DesktopEntry) :
    DesktopEntry.to_string { e with name := rustTrim e.name } =
      e.to_string ∧
    DesktopEntry.to_string { e with comment := rustTrim e.comment } =
      e.to_string ∧
    DesktopEntry.to_string { e with exec_path := rustTrim e.exec_path } =
      e.to_string ∧
    DesktopEntry.to_string { e with icon_path := rustTrim e.icon_path } =
      e.to_string ∧
    DesktopEntry.to_string
      { e with terminal_app := rustTrim e.terminal_app } = e.to_string ∧
    DesktopEntry.to_string { e with app_type := rustTrim e.app_type } =
      e.to_string ∧
    DesktopEntry.to_string { e with categories := rustTrim e.categories } =
      e.to_string := by
  refine ⟨?_, ?_, ?_, ?_, ?_, ?_, ?_⟩ <;>
    simp [DesktopEntry.to_string, rustTrim_idem]

/-- Claim C9: for every home directory, a privileged Global run resolves
the target directory to the fixed absolute global applications path,
independent of the home directory, because pushing the absolute global
path discards the home prefix entirely; a Local run resolves to the home
directory joined with the fixed relative local applications suffix. -/
theorem c9_path_resolution (home : String) (args stdin : List String)
    (root : Bool) :
    (run_cli_mode true args (some home) true stdin).dir? =
      some global_share_applications_path ∧
    (run_cli_mode false args (some home) root stdin).dir? =
      some (pushPath home local_share_applications_path) ∧
    pushPath home global_share_applications_path =
      global_share_applications_path := by
  have hg : strStartsWith global_share_applications_path "/" = true := by
    decide
  refine ⟨?_, ?_, ?_⟩
  · simp [run_cli_mode, pushPath, hg, CliResult.dir?]
  · simp [run_cli_mode, CliResult.dir?]
  · simp [pushPath, hg]

/-- Claim C10: flag lookup uses exact token equality and only the first
occurrence of a flag governs extraction: the extracted value is the token
right after the first occurrence for a single-token flag, and the
collection right after the first occurrence of the comment flag for the
comment. -/
theorem c10_first_occurrence (f : String) (pre rest : List String)
    (hf : f ∉ pre) (hc : flags.COMMENT ∉ pre) :
    getFlagValue f (pre ++ f :: rest) = rest.head? ∧
    getCommentValue (pre ++ flags.COMMENT :: rest) =
      (if (takeCommentParts rest).isEmpty then none
       else some (String.intercalate " " (takeCommentParts rest))) :=
  ⟨getFlagValue_append_first f pre rest hf,
   getCommentValue_append_first pre rest hc⟩

theorem c10_first_occurrence_witness :
    getFlagValue "--exec-path"
      (["--name", "A"] ++ "--exec-path" :: ["v1", "--exec-path", "v2"]) =
      (["v1", "--exec-path", "v2"] : List String).head? ∧
    getCommentValue
      (["--name", "A"] ++ flags.COMMENT :: ["v1", "--exec-path", "v2"]) =
      (if (takeCommentParts ["v1", "--exec-path", "v2"]).isEmpty then none
       else some (String.intercalate " "
         (takeCommentParts ["v1", "--exec-path", "v2"]))) :=
  c10_first_occurrence "--exec-path" ["--name", "A"]
    ["v1", "--exec-path", "v2"] (by decide) (by decide)

end CreateDesktopFile
